import Mathlib

/-!
Verification development for the `cosmic-idle` daemon.

The Rust sources are shallowly embedded below:

* `cosmic-idle-config/src/lib.rs` — the `CosmicIdleConfig` settings struct;
* `src/main.rs` — the orchestrator `State`, its idle-timer recomputation
  (`recreate_notification`), the per-purpose idle handlers
  (`update_screen_off_idle`, `update_suspend_idle`) and the channel event
  handler (`handle_event`);
* `src/fade_black.rs` — the fade-to-black surface, its easing curve, and the
  frame-callback dispatch that powers outputs off when a fade completes;
* `src/freedesktop_screensaver.rs` — the `org.freedesktop.ScreenSaver`
  inhibitor registry (`inhibit`, `un_inhibit`, disconnect reconciliation).

Protocol side effects (Wayland requests, process spawns, timer arming) are
made explicit as an `Effect` list returned next to the new state; wall-clock
instants are modelled as natural numbers of milliseconds; `u32` arithmetic is
modelled on `Nat` with reduction modulo `2 ^ 32` where the source wraps.
-/

namespace CosmicIdle

/-- `cosmic-idle-config/src/lib.rs`: the three optional idle times, in ms. -/
structure CosmicIdleConfig where
  screen_off_time : Option Nat
  suspend_on_battery_time : Option Nat
  suspend_on_ac_time : Option Nat
deriving DecidableEq

/-- `impl Default for CosmicIdleConfig` in `cosmic-idle-config/src/lib.rs`. -/
def CosmicIdleConfig.default : CosmicIdleConfig :=
  { screen_off_time := some (15 * 60 * 1000)
    suspend_on_battery_time := some (15 * 60 * 1000)
    suspend_on_ac_time := some (30 * 60 * 1000) }

/-- `const FADE_TIME: Duration = Duration::from_millis(2000)` (ms). -/
def FADE_TIME : Nat := 2000

/-- `zwlr_output_power_v1::Mode`. -/
inductive Mode where
  | On
  | Off
deriving DecidableEq

/-- `IdleNotification` in `main.rs`: a live idle-timeout subscription and the
timeout (ms) it was created with.  The protocol object handle itself is left
implicit; creating and destroying it appear as explicit `Effect`s. -/
structure IdleNotification where
  time : Nat
deriving DecidableEq

/-- `FadeBlackSurface` in `fade_black.rs`.  The `wl_surface` handle is
modelled by the numeric identity `surface`, used by the frame-callback
dispatch to find the owning output; `started` is the creation instant in ms. -/
structure FadeBlackSurface where
  surface : Nat
  has_first_configure : Bool
  started : Nat
deriving DecidableEq

/-- `Output` in `main.rs` (the `wl_output` and `zwlr_output_power_v1` handles
are implicit; `global_name` identifies the output). -/
structure Output where
  global_name : Nat
  fade_surface : Option FadeBlackSurface
deriving DecidableEq

instance : Inhabited Output := ⟨⟨0, none⟩⟩

/-- `enum Event` in `main.rs`: the only message variant the orchestrator's
channel carries is the battery-state change. -/
inductive Event where
  | onBattery (value : Bool)
deriving DecidableEq

/-- Observable side effects of the orchestrator, in program order: protocol
object creation/destruction, power-mode requests, rendering, frame-callback
requests, process invocation (`wait` records whether the call blocks on the
child's exit status, as `Command::status()` does), and one-shot timer arming
(the delayed lock action). -/
inductive Effect where
  | createIdleObject (time : Nat)
  | destroyIdleObject (time : Nat)
  | createFadeSurface (output : Nat)
  | destroyFadeSurface (output : Nat)
  | setPowerMode (output : Nat) (mode : Mode)
  | renderFrame (alpha : ℚ)
  | requestFrameCallback
  | runCommand (program : String) (args : List String) (wait : Bool)
  | scheduleLockAction (delayMs : Nat)
deriving DecidableEq

/-- `struct State` in `main.rs` (the `StateInner` protocol handles are
implicit). -/
structure State where
  outputs : List Output
  conf : CosmicIdleConfig
  screen_off_idle_notification : Option IdleNotification
  suspend_idle_notification : Option IdleNotification
  on_battery : Bool
deriving DecidableEq

/-- `FadeBlackSurface::new` in `fade_black.rs`: a fresh fade surface for an
output, started `now`, first configure still pending.  The fresh `wl_surface`
identity is modelled by the owning output's `global_name`. -/
def FadeBlackSurface.new (sid now : Nat) : FadeBlackSurface :=
  { surface := sid, has_first_configure := false, started := now }

/-- `State::update_screen_off_idle` in `main.rs`: on idle, give every output a
fresh fade surface (the assignment drops any previous one); on resume, drop
every fade surface and force every output's power mode on. -/
def update_screen_off_idle (s : State) (is_idle : Bool) (now : Nat) :
    State × List Effect :=
  if is_idle then
    ({ s with outputs := s.outputs.map fun o =>
        { o with fade_surface := some (FadeBlackSurface.new o.global_name now) } },
     (s.outputs.map fun o =>
        [Effect.createFadeSurface o.global_name] ++
          match o.fade_surface with
          | some _ => [Effect.destroyFadeSurface o.global_name]
          | none => []).flatten)
  else
    ({ s with outputs := s.outputs.map fun o => { o with fade_surface := none } },
     (s.outputs.map fun o =>
        (match o.fade_surface with
         | some _ => [Effect.destroyFadeSurface o.global_name]
         | none => []) ++
          [Effect.setPowerMode o.global_name Mode.On]).flatten)

/-- `State::update_suspend_idle` in `main.rs`: on idle, run
`systemctl suspend` via `Command::status()`, which waits for the child's exit
status (`wait := true`); the status is only logged, so the state is returned
unchanged.  On resume, nothing happens. -/
def update_suspend_idle (s : State) (is_idle : Bool) : State × List Effect :=
  if is_idle then (s, [Effect.runCommand "systemctl" ["suspend"] true])
  else (s, [])

/-- The `suspend_time` binding inside `State::recreate_notification`. -/
def suspendTime (s : State) : Option Nat :=
  if s.on_battery then s.conf.suspend_on_battery_time else s.conf.suspend_on_ac_time

/-- First half of `State::recreate_notification`: when the live screen-off
subscription's timeout differs from `conf.screen_off_time`, replace it (the
new protocol object is created before the old one is dropped) and force the
screen-off handler to the not-idle state. -/
def recreateScreenOff (s : State) (now : Nat) : State × List Effect :=
  if s.screen_off_idle_notification.map IdleNotification.time =
      s.conf.screen_off_time then
    (s, [])
  else
    let creates := match s.conf.screen_off_time with
      | some t => [Effect.createIdleObject t]
      | none => []
    let destroys := match s.screen_off_idle_notification with
      | some n => [Effect.destroyIdleObject n.time]
      | none => []
    let s' := { s with screen_off_idle_notification :=
      s.conf.screen_off_time.map IdleNotification.mk }
    let (s'', effs) := update_screen_off_idle s' false now
    (s'', creates ++ destroys ++ effs)

/-- Second half of `State::recreate_notification`: the same replacement for
the suspend subscription against the battery-dependent `suspendTime`. -/
def recreateSuspend (s : State) : State × List Effect :=
  if s.suspend_idle_notification.map IdleNotification.time = suspendTime s then
    (s, [])
  else
    let creates := match suspendTime s with
      | some t => [Effect.createIdleObject t]
      | none => []
    let destroys := match s.suspend_idle_notification with
      | some n => [Effect.destroyIdleObject n.time]
      | none => []
    let s' := { s with suspend_idle_notification :=
      (suspendTime s).map IdleNotification.mk }
    let (s'', effs) := update_suspend_idle s' false
    (s'', creates ++ destroys ++ effs)

/-- `State::recreate_notification` in `main.rs`: handle the screen-off
purpose, then the suspend purpose, in program order.  The desired timeouts
are `conf.screen_off_time` and `suspendTime`; no inhibitor input exists in
this `State`. -/
def recreate_notification (s : State) (now : Nat) : State × List Effect :=
  let (s1, e1) := recreateScreenOff s now
  let (s2, e2) := recreateSuspend s1
  (s2, e1 ++ e2)

/-- `State::handle_event` in `main.rs`: the only handled message is
`Event::OnBattery(value)`, which stores the new value; nothing else happens
(in particular no idle-timer recomputation and no protocol request). -/
def handle_event (s : State) (e : Event) : State × List Effect :=
  match e with
  | .onBattery value => ({ s with on_battery := value }, [])

/-! ### Fade-to-black (`fade_black.rs`) -/

/-- `FadeBlackSurface::is_done`: the fade is finished once more than
`FADE_TIME` has elapsed since `started` (strict comparison, as in
`self.started.elapsed() > FADE_TIME`). -/
def FadeBlackSurface.is_done (now : Nat) (f : FadeBlackSurface) : Bool :=
  decide (FADE_TIME < now - f.started)

/-- `EaseInOut.y` from the `keyframe` crate: the piecewise-quadratic
ease-in-out curve on `[0, 1]`. -/
def easeInOutY (t : ℚ) : ℚ :=
  if t < 1 / 2 then 2 * t * t else -1 + (4 - 2 * t) * t

/-- `keyframe::ease(EaseInOut, 0., u32::MAX as f64, time)` as used in
`FadeBlackSurface::update`: `ease` clamps `time` to `[0, 1]` and linearly
interpolates from `0` to `u32::MAX`.  The float arithmetic is modelled
exactly over `ℚ`. -/
def fadeAlpha (elapsedMs : ℚ) : ℚ :=
  easeInOutY (max 0 (min 1 (elapsedMs / (FADE_TIME : ℚ)))) * 4294967295

/-- The `as u32` saturating cast applied to the eased alpha. -/
def fadeAlphaU32 (elapsedMs : ℚ) : Nat :=
  min 4294967295 ⌊fadeAlpha elapsedMs⌋₊

/-- `FadeBlackSurface::update`: attach a single-pixel buffer of the eased
alpha for the current elapsed time and request the next frame callback. -/
def FadeBlackSurface.updateEffects (now : Nat) (f : FadeBlackSurface) :
    List Effect :=
  [Effect.renderFrame (fadeAlpha ((now - f.started : Nat) : ℚ)),
   Effect.requestFrameCallback]

/-- Modelled from the spec: `State::fade_done` is invoked by the
frame-callback dispatch in `fade_black.rs` but its definition is absent from
the sources under `src/`; per the spec it schedules a one-shot delayed action
(fixed 500 ms delay) that invokes the external lock-screen action. -/
def fade_done_effects : List Effect := [Effect.scheduleLockAction 500]

/-- Whether an output's live fade surface owns the `wl_surface` a frame
callback was delivered for (`&fade_surface.surface == surface`). -/
def matchesCallback (sid : Nat) (o : Output) : Bool :=
  match o.fade_surface with
  | some f => f.surface == sid
  | none => false

/-- What the frame-callback loop decided for the first matching output. -/
inductive FrameAction where
  | completed (global_name : Nat)
  | rendered (f : FadeBlackSurface)
deriving DecidableEq

/-- The scan-and-break loop of `Dispatch<WlCallback> for State` in
`fade_black.rs`: walk the outputs, act on the first one whose live fade
surface owns the callback's surface, and leave the rest untouched.  A done
fade is dropped (`fade_surface = None`); otherwise the list is unchanged and
the surface will be re-rendered. -/
def processFirst (now sid : Nat) : List Output → List Output × Option FrameAction
  | [] => ([], none)
  | o :: rest =>
    if matchesCallback sid o then
      match o.fade_surface with
      | some f =>
        if f.is_done now then
          ({ o with fade_surface := none } :: rest, some (.completed o.global_name))
        else
          (o :: rest, some (.rendered f))
      | none => (o :: rest, none)
    else
      let (rest', a) := processFirst now sid rest
      (o :: rest', a)

/-- `Dispatch<WlCallback> for State` in `fade_black.rs`, `Event::Done` arm:
if the matched fade is done, set that output's power mode off, drop the fade,
and — when no output has a live fade surface left — run `fade_done`;
otherwise render the next frame and request another callback. -/
def handleFrameDone (now sid : Nat) (outputs : List Output) :
    List Output × List Effect :=
  let (outputs', action) := processFirst now sid outputs
  match action with
  | some (.completed name) =>
    (outputs',
     [Effect.setPowerMode name Mode.Off] ++
       if outputs'.all (fun o => o.fade_surface.isNone) then fade_done_effects
       else [])
  | some (.rendered f) => (outputs', f.updateEffects now)
  | none => (outputs', [])

/-- Whether an effect schedules the delayed lock-screen action. -/
def isLockSchedule : Effect → Bool
  | .scheduleLockAction _ => true
  | _ => false

/-- The spec-side condition of claim C9: the callback's surface belongs to
the single remaining live fade surface across all outputs, and that fade has
run past the fade duration — i.e. this callback completes the last fade. -/
def lastFadeCompletes (now sid : Nat) (outputs : List Output) : Bool :=
  outputs.countP (fun o => o.fade_surface.isSome) == 1 &&
    outputs.any fun o =>
      match o.fade_surface with
      | some f => f.surface == sid && f.is_done now
      | none => false

/-! ### Inhibitor registry (`freedesktop_screensaver.rs`) -/

/-- `struct Inhibitor`. -/
structure Inhibitor where
  cookie : Nat
  application_name : String
  reason_for_inhibit : String
  client : String
deriving DecidableEq

/-- `struct Screensaver`: the registry of live inhibitors plus the cookie
counter (an `AtomicU32`, modelled as a `Nat` kept below `2 ^ 32`). -/
structure Screensaver where
  inhibitors : List Inhibitor
  last_cookie : Nat
deriving DecidableEq

/-- `2 ^ 32`, the wraparound modulus of the `u32` cookie counter. -/
def u32Mod : Nat := 4294967296

/-- `Screensaver::inhibit`: bump the cookie counter (wrapping `fetch_add`),
and — only when the message header carries a sender — record the inhibitor,
emitting the aggregate signal `true` when the registry was empty.  The
returned values are (new registry state, returned cookie, sent
`Event::ScreensaverInhibit` payloads — a message variant `main.rs`'s `Event`
does not have). -/
def Screensaver.inhibit (s : Screensaver) (application_name : String)
    (reason_for_inhibit : String) (sender : Option String) :
    Screensaver × Nat × List Bool :=
  let cookie := (s.last_cookie + 1) % u32Mod
  match sender with
  | some client =>
    let signals := if s.inhibitors.isEmpty then [true] else []
    ({ inhibitors := s.inhibitors ++
        [{ cookie, application_name, reason_for_inhibit, client }]
       last_cookie := cookie },
     cookie, signals)
  | none => ({ s with last_cookie := cookie }, cookie, [])

/-- `Screensaver::un_inhibit`: remove the inhibitor at the first position
whose cookie matches, if any, and emit the aggregate signal `false` when the
removal empties the registry; an unknown cookie changes nothing. -/
def Screensaver.un_inhibit (s : Screensaver) (cookie : Nat) :
    Screensaver × List Bool :=
  match s.inhibitors.findIdx? (fun x => x.cookie == cookie) with
  | some idx =>
    let inhibitors' := s.inhibitors.eraseIdx idx
    ({ s with inhibitors := inhibitors' },
     if inhibitors'.isEmpty then [false] else [])
  | none => (s, [])

/-- The disconnect-reconciliation arm of `serve`: when a unique bus name
loses its owner, drop every inhibitor that client held, in one batch; the
aggregate signal `false` is emitted once if the registry becomes empty (and
nothing at all happens when it was already empty). -/
def Screensaver.disconnect (s : Screensaver) (name : String) :
    Screensaver × List Bool :=
  if s.inhibitors.isEmpty then (s, [])
  else
    let inhibitors' := s.inhibitors.filter (fun i => i.client != name)
    ({ s with inhibitors := inhibitors' },
     if inhibitors'.isEmpty then [false] else [])

/-- One operation on the inhibitor registry. -/
inductive Op where
  | inhibit (application_name reason_for_inhibit : String) (sender : Option String)
  | unInhibit (cookie : Nat)
  | disconnect (name : String)

/-- Apply one registry operation, returning the new registry and the
aggregate signals it emitted. -/
def Screensaver.step (s : Screensaver) : Op → Screensaver × List Bool
  | .inhibit app reason sender =>
    let (s', _, signals) := s.inhibit app reason sender
    (s', signals)
  | .unInhibit cookie => s.un_inhibit cookie
  | .disconnect name => s.disconnect name

/-- Run a trace of registry operations, concatenating the emitted aggregate
signals in order. -/
def Screensaver.runTrace (s : Screensaver) : List Op → Screensaver × List Bool
  | [] => (s, [])
  | op :: ops =>
    let (s', signals) := s.step op
    let (s'', rest) := s'.runTrace ops
    (s'', signals ++ rest)

/-- Spec-side description of the aggregate signal: one `true` exactly when
the registry size transitions from 0 to non-0, one `false` exactly when it
transitions from non-0 to 0, and nothing otherwise. -/
def transitionSignal (before after : List Inhibitor) : List Bool :=
  if before.isEmpty && !after.isEmpty then [true]
  else if !before.isEmpty && after.isEmpty then [false]
  else []

/-- The signals a trace should emit per the spec: the 0 ↔ non-0 transitions
of the registry size along the trace, in order. -/
def specSignals (s : Screensaver) : List Op → List Bool
  | [] => []
  | op :: ops =>
    let s' := (s.step op).1
    transitionSignal s.inhibitors s'.inhibitors ++ specSignals s' ops

/-! ### Concrete states and trace helpers used by the theorems -/

/-- An orchestrator steady state on AC power: screen-off subscription at
600000 ms, suspend subscription at the AC timeout 1200000 ms, battery
timeout 600000 ms. -/
def batteryDemo : State :=
  { outputs := []
    conf := { screen_off_time := some 600000
              suspend_on_battery_time := some 600000
              suspend_on_ac_time := some 1200000 }
    screen_off_idle_notification := some ⟨600000⟩
    suspend_idle_notification := some ⟨1200000⟩
    on_battery := false }

/-- The spec's reading of the suspend invocation: every external command the
handler runs is spawned without waiting on the child's exit. -/
def commandsSpawnedWithoutWait (effs : List Effect) : Prop :=
  ∀ p a, Effect.runCommand p a true ∉ effs

/-- The registry after `n` successive `Inhibit` calls starting from the fresh
state (`inhibitors = []`, `last_cookie = 0`), all from a connected client. -/
def inhibitTrace : Nat → Screensaver
  | 0 => ⟨[], 0⟩
  | n + 1 => ((inhibitTrace n).inhibit "app" "reason" (some ":1.1")).1

/-- The cookie returned by the `k`-th `Inhibit` call (1-indexed) of that
trace. -/
def cookieOfCall (k : Nat) : Nat :=
  ((inhibitTrace (k - 1)).inhibit "app" "reason" (some ":1.1")).2.1

/-- A registry holding a single inhibitor with cookie 5. -/
def demoScreensaver : Screensaver := ⟨[⟨5, "app", "reason", ":1.7"⟩], 5⟩

/-! ### Helper lemmas -/

theorem map_time_mk (x : Option Nat) :
    Option.map (IdleNotification.time ∘ IdleNotification.mk) x = x := by
  cases x <;> rfl

theorem screenOff_conf (s : State) (now : Nat) :
    ((recreateScreenOff s now).1).conf = s.conf := by
  unfold recreateScreenOff update_screen_off_idle
  split <;> simp

theorem screenOff_on_battery (s : State) (now : Nat) :
    ((recreateScreenOff s now).1).on_battery = s.on_battery := by
  unfold recreateScreenOff update_screen_off_idle
  split <;> simp

theorem screenOff_suspend_notif (s : State) (now : Nat) :
    ((recreateScreenOff s now).1).suspend_idle_notification =
      s.suspend_idle_notification := by
  unfold recreateScreenOff update_screen_off_idle
  split <;> simp

theorem screenOff_screen_notif (s : State) (now : Nat) :
    ((recreateScreenOff s now).1).screen_off_idle_notification.map
        IdleNotification.time = s.conf.screen_off_time := by
  unfold recreateScreenOff update_screen_off_idle
  split
  · next h => exact h
  · simp [map_time_mk]

theorem suspend_conf (s : State) : ((recreateSuspend s).1).conf = s.conf := by
  unfold recreateSuspend update_suspend_idle
  split <;> simp

theorem suspend_on_battery (s : State) :
    ((recreateSuspend s).1).on_battery = s.on_battery := by
  unfold recreateSuspend update_suspend_idle
  split <;> simp

theorem suspend_screen_notif (s : State) :
    ((recreateSuspend s).1).screen_off_idle_notification =
      s.screen_off_idle_notification := by
  unfold recreateSuspend update_suspend_idle
  split <;> simp

theorem suspend_suspend_notif (s : State) :
    ((recreateSuspend s).1).suspend_idle_notification.map IdleNotification.time
      = suspendTime s := by
  unfold recreateSuspend update_suspend_idle
  split
  · next h => exact h
  · simp [map_time_mk]

theorem suspendTime_congr (s s' : State) (hc : s'.conf = s.conf)
    (hb : s'.on_battery = s.on_battery) : suspendTime s' = suspendTime s := by
  simp [suspendTime, hc, hb]

/-! ### Claim theorems -/

/-- C5: recomputing the idle timeouts is idempotent — running
`recreate_notification` again on the state it produced (same config,
`on_battery`, and, vacuously, inhibition inputs) returns that state unchanged
and performs no side effect at all: no subscription is destroyed or created
and no other protocol request or process invocation is emitted. -/
theorem recreate_notification_idempotent (s : State) (now now' : Nat) :
    recreate_notification (recreate_notification s now).1 now' =
      ((recreate_notification s now).1, []) := by
  unfold recreate_notification
  have hso : ∀ t m, recreateScreenOff (recreateSuspend (recreateScreenOff s m).1).1 t
      = ((recreateSuspend (recreateScreenOff s m).1).1, []) := by
    intro t m
    rw [recreateScreenOff, if_pos]
    rw [show ((recreateSuspend (recreateScreenOff s m).1).1).screen_off_idle_notification
        = (recreateScreenOff s m).1.screen_off_idle_notification from suspend_screen_notif _,
      show ((recreateSuspend (recreateScreenOff s m).1).1).conf
        = (recreateScreenOff s m).1.conf from suspend_conf _]
    rw [screenOff_screen_notif, screenOff_conf]
  have hsu : ∀ m, recreateSuspend (recreateSuspend (recreateScreenOff s m).1).1
      = ((recreateSuspend (recreateScreenOff s m).1).1, []) := by
    intro m
    rw [recreateSuspend, if_pos]
    rw [suspend_suspend_notif]
    exact (suspendTime_congr _ _ (suspend_conf _) (suspend_on_battery _)).symm
  simp [hso, hsu]

/-- C1: contrary to the claim, the orchestrator's recompute has no inhibitor
input at all.  After `recreate_notification`, the screen-off subscription's
timeout always equals `conf.screen_off_time`, and the suspend subscription's
timeout always equals the battery-dependent config value, whatever the
inhibitor registry holds; and the orchestrator's channel `Event` type can
only carry a battery-state change, so no inhibitor-aggregate toggle can even
be delivered to it. -/
theorem recreate_notification_ignores_inhibitors :
    (∀ (s : State) (now : Nat),
      ((recreate_notification s now).1).screen_off_idle_notification.map
          IdleNotification.time = s.conf.screen_off_time ∧
      ((recreate_notification s now).1).suspend_idle_notification.map
          IdleNotification.time = suspendTime s) ∧
    ∀ e : Event, ∃ b, e = Event.onBattery b := by
  constructor
  · intro s now
    constructor
    · show ((recreateSuspend (recreateScreenOff s now).1).1).screen_off_idle_notification.map
          IdleNotification.time = s.conf.screen_off_time
      rw [suspend_screen_notif]
      exact screenOff_screen_notif s now
    · show ((recreateSuspend (recreateScreenOff s now).1).1).suspend_idle_notification.map
          IdleNotification.time = suspendTime s
      rw [suspend_suspend_notif]
      exact suspendTime_congr _ _ (screenOff_conf s now) (screenOff_on_battery s now)
  · intro e
    cases e with
    | onBattery b => exact ⟨b, rfl⟩

/-- C2: contrary to the claim, handling a battery-state message performs no
idle-timer recompute.  In the AC steady state, delivering `OnBattery(true)`
only stores the flag and emits no effect; the live suspend subscription keeps
its AC timeout of 1200000 ms even though the target derived from the new
`on_battery` value is 600000 ms. -/
theorem handle_event_on_battery_skips_recompute :
    handle_event batteryDemo (Event.onBattery true) =
        ({ batteryDemo with on_battery := true }, []) ∧
    (handle_event batteryDemo (Event.onBattery true)).1.suspend_idle_notification.map
        IdleNotification.time = some 1200000 ∧
    suspendTime (handle_event batteryDemo (Event.onBattery true)).1 = some 600000 ∧
    ¬ (handle_event batteryDemo (Event.onBattery true)).1.suspend_idle_notification.map
        IdleNotification.time =
      suspendTime (handle_event batteryDemo (Event.onBattery true)).1 := by
  refine ⟨rfl, rfl, rfl, ?_⟩
  decide

/-- C3 (counterexample): the claim that the suspend action is spawned without
waiting is false — on a suspend idle event the handler runs
`systemctl suspend` through `Command::status()`, which waits on the child's
exit status. -/
theorem suspend_command_waits :
    ¬ commandsSpawnedWithoutWait (update_suspend_idle batteryDemo true).2 := by
  intro h
  exact h "systemctl" ["suspend"] (by simp [update_suspend_idle])

/-- C3 (amended): on every suspend idle event the external suspend command is
invoked exactly once, run synchronously — the handler waits for the child's
exit status, which is only logged, never fed back into orchestrator state
(the state is returned unchanged); a suspend resume event does nothing. -/
theorem update_suspend_idle_spec (s : State) :
    update_suspend_idle s true =
        (s, [Effect.runCommand "systemctl" ["suspend"] true]) ∧
    update_suspend_idle s false = (s, []) :=
  ⟨rfl, rfl⟩

/-- Helper for C4: each single registry operation emits exactly the signal of
the 0 ↔ non-0 transition it causes, and nothing otherwise. -/
theorem step_signal (s : Screensaver) (op : Op) :
    (s.step op).2 = transitionSignal s.inhibitors ((s.step op).1).inhibitors := by
  cases op with
  | inhibit app reason sender =>
    cases sender with
    | none =>
      by_cases hl : s.inhibitors.isEmpty <;>
        simp [Screensaver.step, Screensaver.inhibit, transitionSignal, hl]
    | some c =>
      by_cases hl : s.inhibitors.isEmpty <;>
        simp [Screensaver.step, Screensaver.inhibit, transitionSignal, hl]
  | unInhibit cookie =>
    simp only [Screensaver.step, Screensaver.un_inhibit]
    cases hfind : s.inhibitors.findIdx? (fun x => x.cookie == cookie) with
    | none =>
      by_cases hl : s.inhibitors.isEmpty <;> simp [transitionSignal, hl]
    | some idx =>
      have hne : s.inhibitors.isEmpty = false := by
        cases hList : s.inhibitors with
        | nil => rw [hList] at hfind; simp [List.findIdx?] at hfind
        | cons a l => simp
      by_cases he : (s.inhibitors.eraseIdx idx).isEmpty <;>
        simp [transitionSignal, hne, he]
  | disconnect name =>
    simp only [Screensaver.step, Screensaver.disconnect]
    by_cases hl : s.inhibitors.isEmpty
    · simp [transitionSignal, hl]
    · by_cases he : (s.inhibitors.filter (fun i => i.client != name)).isEmpty <;>
        simp [transitionSignal, hl, he]

/-- C4: over every trace of `Inhibit`, `UnInhibit` and client-disconnect
operations, from any starting registry, the aggregate signals emitted are
exactly the 0 ↔ non-0 transitions of the registry size, in order — `true` on
0 → non-0, `false` on non-0 → 0, nothing at any other point; a disconnect
that removes several inhibitors emits at most one `false` for the whole
batch. -/
theorem trace_signals_are_transitions (s : Screensaver) (ops : List Op) :
    (s.runTrace ops).2 = specSignals s ops := by
  induction ops generalizing s with
  | nil => rfl
  | cons op rest ih =>
    simp only [Screensaver.runTrace, specSignals]
    rw [← step_signal, ih]

/-- Helper: `findIdx?` only returns indices inside the list. -/
theorem findIdx?_lt_len {α : Type} (p : α → Bool) :
    ∀ (l : List α) (i : Nat), l.findIdx? p = some i → i < l.length := by
  intro l
  induction l with
  | nil => intro i h; simp [List.findIdx?] at h
  | cons a l ih =>
    intro i h
    rw [List.findIdx?_cons] at h
    by_cases hp : p a
    · simp [hp] at h
      simp only [List.length_cons]
      omega
    · simp [hp] at h
      obtain ⟨j, hj, rfl⟩ := h
      have := ih j hj
      simp
      omega

/-- Helper: `un_inhibit` with a cookie no live inhibitor holds returns the
registry unchanged and emits nothing. -/
theorem un_inhibit_not_found (s : Screensaver) (cookie : Nat)
    (h : ∀ i ∈ s.inhibitors, i.cookie ≠ cookie) :
    s.un_inhibit cookie = (s, []) := by
  have hnone : s.inhibitors.findIdx? (fun x => x.cookie == cookie) = none := by
    rw [List.findIdx?_eq_none_iff]
    intro x hx
    simpa using h x hx
  simp [Screensaver.un_inhibit, hnone]

/-- C7: `UnInhibit(cookie)` when no live inhibitor holds that cookie —
including a repeated `UnInhibit` of an already-removed cookie — is a silent
no-op: the registry is unchanged, no aggregate signal is emitted and no error
is raised; only when some live inhibitor holds the cookie is exactly one
inhibitor removed. -/
theorem un_inhibit_spec (s : Screensaver) (cookie : Nat) :
    ((∀ i ∈ s.inhibitors, i.cookie ≠ cookie) → s.un_inhibit cookie = (s, [])) ∧
    ((∃ i ∈ s.inhibitors, i.cookie = cookie) →
      (s.un_inhibit cookie).1.inhibitors.length + 1 = s.inhibitors.length) := by
  refine ⟨un_inhibit_not_found s cookie, ?_⟩
  intro hex
  have hne : s.inhibitors.findIdx? (fun x => x.cookie == cookie) ≠ none := by
    rw [Ne, List.findIdx?_eq_none_iff]
    obtain ⟨i, hi, hc⟩ := hex
    intro hall
    have := hall i hi
    simp [hc] at this
  obtain ⟨idx, hidx⟩ := Option.ne_none_iff_exists'.mp hne
  have hlt := findIdx?_lt_len _ _ _ hidx
  simp [Screensaver.un_inhibit, hidx, List.length_eraseIdx, hlt]
  omega

/-- C7 witness: un-inhibiting the unknown cookie 7 on a registry holding only
cookie 5 changes nothing and emits nothing. -/
theorem un_inhibit_spec_witness :
    Screensaver.un_inhibit demoScreensaver 7 = (demoScreensaver, []) :=
  (un_inhibit_spec demoScreensaver 7).1 (by decide)

/-- Helper for C6: the cookie counter after `n` inhibit calls from the fresh
registry is `n` modulo `2 ^ 32`. -/
theorem inhibitTrace_last_cookie (n : Nat) :
    (inhibitTrace n).last_cookie = n % u32Mod := by
  induction n with
  | zero => rfl
  | succ n ih =>
    simp [inhibitTrace, Screensaver.inhibit, ih, u32Mod]

/-- Helper for C6: the closed form of the `k`-th returned cookie. -/
theorem cookieOfCall_closed (k : Nat) :
    cookieOfCall k = ((k - 1) % u32Mod + 1) % u32Mod := by
  simp [cookieOfCall, Screensaver.inhibit, inhibitTrace_last_cookie]

/-- C6 (counterexample): cookies are not strictly increasing across all
pairs of calls — the first call returns 1, but the `2 ^ 32`-th call wraps the
`u32` counter and returns 0, which is not larger. -/
theorem cookie_wraps :
    cookieOfCall 1 = 1 ∧ cookieOfCall 4294967296 = 0 ∧
      ¬ cookieOfCall 1 < cookieOfCall 4294967296 := by
  rw [cookieOfCall_closed, cookieOfCall_closed]
  norm_num [u32Mod]

/-- C6 (amended): from a fresh registry the first `Inhibit` call returns
cookie 1 and the second returns cookie 2, and cookies are strictly
increasing for every pair of calls made before the wrapping `u32` counter
overflows (i.e. among the first `2 ^ 32 - 1` calls). -/
theorem cookie_monotone :
    cookieOfCall 1 = 1 ∧ cookieOfCall 2 = 2 ∧
      ∀ j k : Nat, 0 < j → j < k → k < 4294967296 →
        cookieOfCall j < cookieOfCall k := by
  refine ⟨by rw [cookieOfCall_closed]; norm_num [u32Mod],
          by rw [cookieOfCall_closed]; norm_num [u32Mod], ?_⟩
  intro j k hj hjk hk
  rw [cookieOfCall_closed, cookieOfCall_closed]
  simp only [u32Mod]
  omega

/-- C6 witness: the second call's cookie is strictly larger than the
first's. -/
theorem cookie_monotone_witness : cookieOfCall 1 < cookieOfCall 2 :=
  cookie_monotone.2.2 1 2 (by decide) (by decide) (by decide)

/-- C10: an `Inhibit` call whose message header has no sender still advances
the counter and returns the fresh cookie, but records no inhibitor and emits
no aggregate signal; the registry is unchanged, and a later `UnInhibit` of
the returned cookie (which no live inhibitor holds) is a no-op. -/
theorem inhibit_no_sender (s : Screensaver) (app reason : String) :
    (s.inhibit app reason none).1 =
        { s with last_cookie := (s.last_cookie + 1) % u32Mod } ∧
    (s.inhibit app reason none).2.1 = (s.last_cookie + 1) % u32Mod ∧
    (s.inhibit app reason none).2.2 = [] ∧
    ((∀ i ∈ s.inhibitors, i.cookie ≠ (s.last_cookie + 1) % u32Mod) →
      Screensaver.un_inhibit (s.inhibit app reason none).1
          (s.inhibit app reason none).2.1 =
        ((s.inhibit app reason none).1, [])) := by
  refine ⟨rfl, rfl, rfl, ?_⟩
  intro h
  exact un_inhibit_not_found _ _ h

/-- C10 witness: on the fresh registry, a sender-less `Inhibit` followed by
an `UnInhibit` of the cookie it returned changes nothing. -/
theorem inhibit_no_sender_witness :
    Screensaver.un_inhibit ((Screensaver.inhibit ⟨[], 0⟩ "app" "r" none).1)
        ((Screensaver.inhibit ⟨[], 0⟩ "app" "r" none).2.1) =
      ((Screensaver.inhibit ⟨[], 0⟩ "app" "r" none).1, []) :=
  (inhibit_no_sender ⟨[], 0⟩ "app" "r").2.2.2 (by decide)

/-- Helper: the ease-in-out curve is monotone on `[0, 1]`. -/
theorem easeInOutY_mono {a b : ℚ} (ha : 0 ≤ a) (hab : a ≤ b) (hb : b ≤ 1) :
    easeInOutY a ≤ easeInOutY b := by
  unfold easeInOutY
  split <;> split <;> rename_i h1 h2
  · nlinarith
  · nlinarith [mul_nonneg (by linarith : (0:ℚ) ≤ 2 * b - 1)
      (by linarith : (0:ℚ) ≤ 3 - 2 * b)]
  · linarith
  · nlinarith [mul_nonneg (sub_nonneg.mpr hab)
      (by linarith : (0:ℚ) ≤ 2 - a - b)]

/-- Helper: the clamp used by `keyframe::ease` lands in `[0, 1]`. -/
theorem clamp_bounds (x : ℚ) : 0 ≤ max 0 (min 1 x) ∧ max 0 (min 1 x) ≤ 1 := by
  constructor
  · exact le_max_left 0 _
  · apply max_le (by norm_num) (min_le_left 1 x)

/-- Helper: the rendered fade opacity is monotone in elapsed time. -/
theorem fadeAlpha_mono {e₁ e₂ : ℚ} (h : e₁ ≤ e₂) :
    fadeAlpha e₁ ≤ fadeAlpha e₂ := by
  unfold fadeAlpha
  have hc : max 0 (min 1 (e₁ / (FADE_TIME : ℚ))) ≤
      max 0 (min 1 (e₂ / (FADE_TIME : ℚ))) := by
    apply max_le_max le_rfl
    apply min_le_min le_rfl
    rw [div_le_div_iff_of_pos_right (by norm_num [FADE_TIME])]
    exact h
  have h1 := clamp_bounds (e₁ / (FADE_TIME : ℚ))
  have h2 := clamp_bounds (e₂ / (FADE_TIME : ℚ))
  have := easeInOutY_mono h1.1 hc h2.2
  nlinarith

/-- Helper: monotonicity survives the `as u32` saturating cast. -/
theorem fadeAlphaU32_mono {e₁ e₂ : ℚ} (h : e₁ ≤ e₂) :
    fadeAlphaU32 e₁ ≤ fadeAlphaU32 e₂ := by
  unfold fadeAlphaU32
  exact min_le_min le_rfl (Nat.floor_mono (fadeAlpha_mono h))

/-- Helper: what the frame-callback scan produced, by case — no output
matched; the first matching fade was still running (list untouched); or the
first matching fade was done (that fade dropped, everything else kept). -/
theorem processFirst_spec (now sid : Nat) (l : List Output) :
    ((processFirst now sid l).2 = none →
        (processFirst now sid l).1 = l ∧
          ∀ o ∈ l, matchesCallback sid o = false) ∧
    (∀ f, (processFirst now sid l).2 = some (.rendered f) →
        (processFirst now sid l).1 = l ∧
        ∃ pre o post, l = pre ++ o :: post ∧
          (∀ x ∈ pre, matchesCallback sid x = false) ∧
          o.fade_surface = some f ∧ f.surface = sid ∧ f.is_done now = false) ∧
    (∀ n, (processFirst now sid l).2 = some (.completed n) →
        ∃ pre o f post, l = pre ++ o :: post ∧
          (∀ x ∈ pre, matchesCallback sid x = false) ∧
          o.fade_surface = some f ∧ f.surface = sid ∧ f.is_done now = true ∧
          n = o.global_name ∧
          (processFirst now sid l).1 =
            pre ++ { o with fade_surface := none } :: post) := by
  induction l with
  | nil =>
    refine ⟨fun _ => ⟨rfl, by simp⟩, ?_, ?_⟩ <;> intro x h <;>
      simp [processFirst] at h
  | cons o rest ih =>
    by_cases hm : matchesCallback sid o
    · cases hf : o.fade_surface with
      | none => simp [matchesCallback, hf] at hm
      | some f =>
        by_cases hd : f.is_done now
        · refine ⟨?_, ?_, ?_⟩
          · intro h; simp [processFirst, hm, hf, hd] at h
          · intro f' h; simp [processFirst, hm, hf, hd] at h
          · intro n h
            simp only [processFirst, hm, if_true, hf, hd, ite_true] at h ⊢
            refine ⟨[], o, f, rest, by simp, by simp, hf, ?_, ?_, ?_, by simp⟩
            · simpa [matchesCallback, hf] using hm
            · exact hd
            · simpa using h.symm
        · refine ⟨?_, ?_, ?_⟩
          · intro h; simp [processFirst, hm, hf, hd] at h
          · intro f' h
            simp only [processFirst, hm, if_true, hf, hd, ite_false] at h ⊢
            have hff : f = f' := by simpa using h
            subst hff
            refine ⟨rfl, [], o, rest, by simp, by simp, hf, ?_,
              by simpa using hd⟩
            simpa [matchesCallback, hf] using hm
          · intro n h; simp [processFirst, hm, hf, hd] at h
    · have hpf : processFirst now sid (o :: rest) =
          (o :: (processFirst now sid rest).1, (processFirst now sid rest).2) := by
        simp [processFirst, hm]
      refine ⟨?_, ?_, ?_⟩
      · intro h
        rw [hpf] at h
        obtain ⟨h1, h2⟩ := ih.1 h
        refine ⟨by rw [hpf, h1], ?_⟩
        intro x hx
        rcases List.mem_cons.mp hx with rfl | hx
        · simpa using hm
        · exact h2 x hx
      · intro f h
        rw [hpf] at h
        obtain ⟨h1, pre, o', post, hl, hpre, hfs, hsid, hdone⟩ := ih.2.1 f h
        refine ⟨by rw [hpf, h1], o :: pre, o', post, by rw [hl]; rfl, ?_,
          hfs, hsid, hdone⟩
        intro x hx
        rcases List.mem_cons.mp hx with rfl | hx
        · simpa using hm
        · exact hpre x hx
      · intro n h
        rw [hpf] at h
        obtain ⟨pre, o', f, post, hl, hpre, hfs, hsid, hdone, hn, houts⟩ :=
          ih.2.2 n h
        refine ⟨o :: pre, o', f, post, by rw [hl]; rfl, ?_, hfs, hsid, hdone,
          hn, by rw [hpf]; simp [houts]⟩
        intro x hx
        rcases List.mem_cons.mp hx with rfl | hx
        · simpa using hm
        · exact hpre x hx

/-- C8: the rendered fade opacity (both the exact rational value and its
`u32` cast) is monotone non-decreasing in elapsed time; a frame callback sets
an output's power mode off only when the matched fade surface's elapsed time
strictly exceeds `FADE_TIME`; and on a callback whose matched fade is not yet
past the duration the handler instead renders the eased frame and requests
another callback, leaving the outputs untouched. -/
theorem fade_monotone_off_after_duration :
    (∀ e₁ e₂ : ℚ, e₁ ≤ e₂ →
      fadeAlpha e₁ ≤ fadeAlpha e₂ ∧ fadeAlphaU32 e₁ ≤ fadeAlphaU32 e₂) ∧
    (∀ (now sid : Nat) (outputs : List Output) (n : Nat),
      Effect.setPowerMode n Mode.Off ∈ (handleFrameDone now sid outputs).2 →
      ∃ o f, o ∈ outputs ∧ o.global_name = n ∧ o.fade_surface = some f ∧
        f.surface = sid ∧ FADE_TIME < now - f.started) ∧
    (∀ (now sid : Nat) (outputs outs : List Output) (f : FadeBlackSurface),
      processFirst now sid outputs = (outs, some (.rendered f)) →
      now - f.started ≤ FADE_TIME ∧ outs = outputs ∧
      (handleFrameDone now sid outputs).2 =
        [Effect.renderFrame (fadeAlpha ((now - f.started : Nat) : ℚ)),
         Effect.requestFrameCallback]) := by
  refine ⟨fun e₁ e₂ h => ⟨fadeAlpha_mono h, fadeAlphaU32_mono h⟩, ?_, ?_⟩
  · intro now sid outputs n hmem
    cases hpf : processFirst now sid outputs with
    | mk outs act =>
      cases act with
      | none => simp [handleFrameDone, hpf] at hmem
      | some a =>
        cases a with
        | rendered f =>
          simp [handleFrameDone, hpf, FadeBlackSurface.updateEffects] at hmem
        | completed m =>
          have hsp := (processFirst_spec now sid outputs).2.2 m (by rw [hpf])
          obtain ⟨pre, o, f, post, hl, _, hfs, hsid, hdone, hn, _⟩ := hsp
          have hnm : n = m := by
            simp only [handleFrameDone, hpf] at hmem
            rcases List.mem_append.mp hmem with h | h
            · simpa using h
            · split at h <;> simp [fade_done_effects] at h
          refine ⟨o, f, ?_, by rw [hnm, hn], hfs, hsid, ?_⟩
          · rw [hl]; exact List.mem_append_right _ (List.mem_cons_self o post)
          · exact of_decide_eq_true
              (by simpa [FadeBlackSurface.is_done] using hdone)
  · intro now sid outputs outs f hpf
    have hsp := (processFirst_spec now sid outputs).2.1 f (by rw [hpf])
    obtain ⟨h1, pre, o, post, hl, hpre, hfs, hsid, hdone⟩ := hsp
    refine ⟨?_, by rw [← h1, hpf], ?_⟩
    · have : ¬ FADE_TIME < now - f.started := by
        intro hc
        simp [FadeBlackSurface.is_done, hc] at hdone
      omega
    · simp [handleFrameDone, hpf, FadeBlackSurface.updateEffects]

/-- C8 witness: on a single output whose fade started at 0, an opacity
comparison at 500 vs 1000 ms, the power-off fact for a callback at 3000 ms,
and the render branch for a callback at 1000 ms. -/
theorem fade_monotone_off_after_duration_witness :
    (fadeAlpha 500 ≤ fadeAlpha 1000 ∧ fadeAlphaU32 500 ≤ fadeAlphaU32 1000) ∧
    (∃ o f, o ∈ [Output.mk 1 (some (FadeBlackSurface.mk 7 true 0))] ∧
      o.global_name = 1 ∧ o.fade_surface = some f ∧ f.surface = 7 ∧
      FADE_TIME < 3000 - f.started) ∧
    (1000 - (FadeBlackSurface.mk 7 true 0).started ≤ FADE_TIME ∧
      [Output.mk 1 (some (FadeBlackSurface.mk 7 true 0))] =
        [Output.mk 1 (some (FadeBlackSurface.mk 7 true 0))] ∧
      (handleFrameDone 1000 7
          [Output.mk 1 (some (FadeBlackSurface.mk 7 true 0))]).2 =
        [Effect.renderFrame (fadeAlpha
            ((1000 - (FadeBlackSurface.mk 7 true 0).started : Nat) : ℚ)),
         Effect.requestFrameCallback]) :=
  ⟨fade_monotone_off_after_duration.1 500 1000 (by norm_num),
   fade_monotone_off_after_duration.2.1 3000 7 _ 1 (by decide),
   fade_monotone_off_after_duration.2.2 1000 7 _ _ _ (by decide)⟩

/-- Helper for C9: the live-fade count across a decomposition at an output
with a live fade. -/
theorem countP_isSome_split (pre post : List Output) (o : Output)
    (f : FadeBlackSurface) (hfs : o.fade_surface = some f) :
    (pre ++ o :: post).countP (fun x => x.fade_surface.isSome) =
      pre.countP (fun x => x.fade_surface.isSome) +
        post.countP (fun x => x.fade_surface.isSome) + 1 := by
  rw [List.countP_append, List.countP_cons_of_pos _ _ (by simp [hfs])]
  omega

/-- C9: a frame callback schedules the one-shot delayed lock-screen action
exactly when it completes the last live fade surface across all outputs —
one action in total, scheduled on no other callback; in particular nothing is
scheduled while any output's fade surface is still live (`fade_done` itself
is modelled from the spec, being absent from the sources). -/
theorem last_fade_schedules_one_lock (now sid : Nat)
    (outputs : List Output) :
    (handleFrameDone now sid outputs).2.countP isLockSchedule =
      if lastFadeCompletes now sid outputs then 1 else 0 := by
  cases hpf : processFirst now sid outputs with
  | mk outs act =>
    cases act with
    | none =>
      obtain ⟨houts, hall⟩ := (processFirst_spec now sid outputs).1 (by rw [hpf])
      have hlf : lastFadeCompletes now sid outputs = false := by
        have hany : (outputs.any fun o => match o.fade_surface with
            | some f => f.surface == sid && f.is_done now
            | none => false) = false := by
          rw [Bool.eq_false_iff]
          intro h
          obtain ⟨o, ho, hcond⟩ := List.any_eq_true.mp h
          cases hf : o.fade_surface with
          | none => rw [hf] at hcond; simp at hcond
          | some f =>
            rw [hf] at hcond
            have hm := hall o ho
            simp [matchesCallback, hf] at hm
            simp [hm] at hcond
        unfold lastFadeCompletes
        rw [hany, Bool.and_false]
      rw [hlf]
      simp [handleFrameDone, hpf]
    | some a =>
      cases a with
      | rendered f =>
        obtain ⟨h1, pre, o, post, hl, hpre, hfs, hsid, hdone⟩ :=
          (processFirst_spec now sid outputs).2.1 f (by rw [hpf])
        have hlf : lastFadeCompletes now sid outputs = false := by
          rw [Bool.eq_false_iff]
          intro hc
          unfold lastFadeCompletes at hc
          rw [Bool.and_eq_true] at hc
          obtain ⟨hcount, hany⟩ := hc
          have hcount1 : outputs.countP (fun x => x.fade_surface.isSome) = 1 := by
            simpa using hcount
          obtain ⟨o', ho', hcond⟩ := List.any_eq_true.mp hany
          rw [hl] at ho'
          rcases List.mem_append.mp ho' with hmem | hmem
          · have hm := hpre o' hmem
            cases hf' : o'.fade_surface with
            | none => rw [hf'] at hcond; simp at hcond
            | some f' =>
              rw [hf'] at hcond
              simp [matchesCallback, hf'] at hm
              simp [hm] at hcond
          · rcases List.mem_cons.mp hmem with rfl | hmem
            · rw [hfs] at hcond
              rw [Bool.and_eq_true, hdone] at hcond
              simp at hcond
            · have hpostpos : 0 < post.countP (fun x => x.fade_surface.isSome) := by
                rw [List.countP_pos_iff]
                refine ⟨o', hmem, ?_⟩
                cases hf' : o'.fade_surface with
                | none => rw [hf'] at hcond; simp at hcond
                | some f' => simp [hf']
              rw [hl, countP_isSome_split pre post o f hfs] at hcount1
              omega
        rw [hlf]
        simp [handleFrameDone, hpf, FadeBlackSurface.updateEffects, isLockSchedule]
      | completed n =>
        obtain ⟨pre, o, f, post, hl, hpre, hfs, hsid, hdone, hn, houts⟩ :=
          (processFirst_spec now sid outputs).2.2 n (by rw [hpf])
        have houts' : outs = pre ++ { o with fade_surface := none } :: post := by
          rw [← houts, hpf]
        have heff : (handleFrameDone now sid outputs).2 =
            Effect.setPowerMode n Mode.Off ::
              (if outs.all (fun x => x.fade_surface.isNone) then fade_done_effects
               else []) := by
          simp [handleFrameDone, hpf]
        rw [heff, List.countP_cons_of_neg _ _ (by simp [isLockSchedule])]
        by_cases hallb : outs.all (fun x => x.fade_surface.isNone) = true
        · rw [if_pos hallb]
          have hlf : lastFadeCompletes now sid outputs = true := by
            unfold lastFadeCompletes
            rw [Bool.and_eq_true]
            constructor
            · rw [houts', List.all_append] at hallb
              rw [Bool.and_eq_true] at hallb
              obtain ⟨hp, hq⟩ := hallb
              rw [List.all_cons] at hq
              rw [Bool.and_eq_true] at hq
              have hpre0 : pre.countP (fun x => x.fade_surface.isSome) = 0 := by
                rw [List.countP_eq_zero]
                intro x hx
                have := List.all_eq_true.mp hp x hx
                cases hfx : x.fade_surface <;> simp_all
              have hpost0 : post.countP (fun x => x.fade_surface.isSome) = 0 := by
                rw [List.countP_eq_zero]
                intro x hx
                have := List.all_eq_true.mp hq.2 x hx
                cases hfx : x.fade_surface <;> simp_all
              rw [hl, countP_isSome_split pre post o f hfs, hpre0, hpost0]
              rfl
            · rw [List.any_eq_true]
              refine ⟨o, ?_, ?_⟩
              · rw [hl]
                exact List.mem_append_right _ (List.mem_cons_self o post)
              · rw [hfs]
                simp [hsid, hdone]
          rw [hlf]
          simp [fade_done_effects, isLockSchedule]
        · rw [if_neg hallb]
          have hlf : lastFadeCompletes now sid outputs = false := by
            rw [Bool.eq_false_iff]
            intro hc
            unfold lastFadeCompletes at hc
            rw [Bool.and_eq_true] at hc
            obtain ⟨hcount, _⟩ := hc
            have hcount1 : outputs.countP (fun x => x.fade_surface.isSome) = 1 := by
              simpa using hcount
            rw [hl, countP_isSome_split pre post o f hfs] at hcount1
            apply hallb
            rw [houts', List.all_append, Bool.and_eq_true]
            constructor
            · rw [List.all_eq_true]
              intro x hx
              have h0 : pre.countP (fun x => x.fade_surface.isSome) = 0 := by omega
              rw [List.countP_eq_zero] at h0
              have := h0 x hx
              cases hfx : x.fade_surface <;> simp_all
            · rw [List.all_cons, Bool.and_eq_true]
              refine ⟨by simp, ?_⟩
              rw [List.all_eq_true]
              intro x hx
              have h0 : post.countP (fun x => x.fade_surface.isSome) = 0 := by omega
              rw [List.countP_eq_zero] at h0
              have := h0 x hx
              cases hfx : x.fade_surface <;> simp_all
          rw [hlf]
          simp

end CosmicIdle
